import Mathlib

/-!
# Verification of the kaspad getBlockTemplate RPC core

A shallow embedding of `src/server/rpc/handle_get_block_template.go`
(the block-template service of the kaspad node) together with proofs
about its long-poll ID codec, its rejection-string mapper, its
notification registry, its template cache and its result assembler.

Modelling conventions:
* Go strings are `List Char` (`Str`); Go byte slices are `List Nat`.
* `mstime.Time` (millisecond-precision wall time) is `Int` milliseconds
  since the Unix epoch; the Go zero value is modelled as `0`.
* A `daghash.Hash` is represented by the 64-character lowercase hex
  string its `String()` method prints; `daghash.TxID` by a `Nat`.
* A Go `chan struct{}` is identified by a `Nat`; closing a channel is
  modelled by emitting its identifier into a "fired" list.
* Go maps are association lists with unique keys (a Go map can never
  hold a key twice); map iteration order is unspecified in Go, so the
  model fixes one admissible order and theorems about map contents are
  stated as membership properties, which are order-independent.
* External collaborators (DAG, mempool, mining generator, RNG, sync
  manager) are captured by an environment record holding the values
  they would return during one handler invocation.
-/

namespace KaspadGBT

/-- Characters of a Go string. -/
abbrev Str := List Char

/-- A block hash, represented by the 64-character lowercase hex string
printed by `daghash.Hash.String()`. -/
abbrev Hash := Str

/-- Go `mstime.Time` as integer milliseconds since the Unix epoch; the Go
zero value is modelled as `0`. -/
abbrev MsTime := Int

/-- The method `mstime.Time.UnixSeconds()`: milliseconds divided by 1000, truncating
toward zero exactly as Go's `int64` division does. -/
def unixSeconds (t : MsTime) : Int := Int.tdiv t 1000

/-- Go `strings.Split(s, "-")`: the fields between dashes, empty fields
kept, so the result always has one more field than there are dashes. -/
def splitDash : Str → List Str
  | [] => [[]]
  | c :: rest =>
    match splitDash rest with
    | [] => [[]]
    | f :: fs => if c = '-' then [] :: f :: fs else (c :: f) :: fs

/-- Model of `daghash.JoinHashesStrings(hashes, "")` — every call site in this file
passes the empty separator, so the join is plain concatenation. -/
def joinHashesStrings (hashes : List Hash) : Str := hashes.flatten

/-- The decimal rendering of an integer, as `fmt`'s `%d` verb prints it. -/
def intToDecimalStr (n : Int) : Str :=
  if n < 0 then '-' :: Nat.toDigits 10 n.natAbs else Nat.toDigits 10 n.natAbs

/-- Model of `encodeLongPollID(parentHashes, miningAddress, lastGenerated)`:
`fmt.Sprintf("%s-%s-%d", JoinHashesStrings(parentHashes, ""), miningAddress,
lastGenerated.UnixSeconds())`. -/
def encodeLongPollID (parentHashes : List Hash) (miningAddress : Str)
    (lastGenerated : MsTime) : Str :=
  joinHashesStrings parentHashes ++ ('-' :: miningAddress) ++
    ('-' :: intToDecimalStr (unixSeconds lastGenerated))

/-- Constant `daghash.HashSize` (32, the byte width of a hash); `decodeLongPollID`
measures the hex field against this constant. -/
def hashSize : Nat := 32

/-- Is `c` an ASCII hexadecimal digit? -/
def isHexChar (c : Char) : Bool :=
  c.isDigit || (97 ≤ c.toNat && c.toNat ≤ 102) || (65 ≤ c.toNat && c.toNat ≤ 70)

/-- Modelled from the spec: `daghash.NewHashFromStr` lives outside `src/`;
per §4.1 it parses a hex hash string, rejecting non-hex input, and the
canonical printed form is the fixed-width hex string (shorter inputs are
zero-extended).  No claim in this development depends on the exact hash
value produced here. -/
def newHashFromStr (s : Str) : Except Str Hash :=
  if s.length > 64 then .error "max hash string length exceeded".toList
  else if s.all isHexChar then
    .ok (List.replicate (64 - s.length) '0' ++ s.map Char.toLower)
  else .error "invalid hash string".toList

/-- The chunking loop of `decodeLongPollID`: parse `n` consecutive
`hashSize`-character substrings, failing on the first bad chunk. -/
def parseHashChunks : Nat → Str → Except Str (List Hash)
  | 0, _ => .ok []
  | n + 1, s => do
    let h ← newHashFromStr (s.take hashSize)
    let rest ← parseHashChunks n (s.drop hashSize)
    pure (h :: rest)

/-- Value of a string of decimal digits (`none` on a non-digit). -/
def digitsVal (s : Str) : Option Nat :=
  s.foldlM (fun acc c => if c.isDigit then some (acc * 10 + (c.toNat - 48)) else none) 0

/-- Go `strconv.ParseInt(s, 10, 64)` modelled without the 64-bit range check
(no claim exercises the overflow path): an optional sign followed by at
least one decimal digit. -/
def parseDecInt (s : Str) : Except Str Int :=
  match s with
  | [] => .error "invalid integer".toList
  | '+' :: rest =>
    match rest, digitsVal rest with
    | _ :: _, some v => .ok (v : Int)
    | _, _ => .error "invalid integer".toList
  | '-' :: rest =>
    match rest, digitsVal rest with
    | _ :: _, some v => .ok (-(v : Int))
    | _, _ => .error "invalid integer".toList
  | s' =>
    match digitsVal s' with
    | some v => .ok (v : Int)
    | none => .error "invalid integer".toList

/-- Model of `decodeLongPollID`: split on `-`, demand exactly two fields, demand the
first field's length be a multiple of `hashSize`, parse it in
`hashSize`-character chunks, and parse the second field as a decimal
integer. -/
def decodeLongPollID (longPollID : Str) : Except Str (List Hash × Int) :=
  let fields := splitDash longPollID
  if fields.length ≠ 2 then
    .error "decodeLongPollID: invalid number of fields".toList
  else
    let parentHashesStr := fields.headD []
    if parentHashesStr.length % hashSize ≠ 0 then
      .error "decodeLongPollID: invalid parent hashes format".toList
    else do
      let parentHashes ← parseHashChunks (parentHashesStr.length / hashSize) parentHashesStr
      let lastGenerated ← parseDecInt ((fields.drop 1).headD [])
      pure (parentHashes, lastGenerated)

/-- The inner level of the notification registry: generation timestamp
(Unix seconds) to one-shot release channel.  Mirrors Go's
`map[int64]chan struct{}` as an association list with unique keys. -/
abbrev NotifySet := List (Int × Nat)

/-- The notification registry: tip-fingerprint string to `NotifySet`.
Mirrors Go's `map[string]map[int64]chan struct{}`. -/
abbrev NotifyMap := List (Str × NotifySet)

/-- Go map lookup on the outer registry level. -/
def lookupNM : NotifyMap → Str → Option NotifySet
  | [], _ => none
  | e :: rest, k => if e.1 = k then some e.2 else lookupNM rest k

/-- Go map lookup on the inner registry level. -/
def lookupNS : NotifySet → Int → Option Nat
  | [], _ => none
  | p :: rest, k => if p.1 = k then some p.2 else lookupNS rest k

/-- Model of `gbtWorkState.notifyLongPollers(tipHashes, lastGenerated)` acting on the
notify map alone (the only state it touches); returns the updated map and
the list of channels that were closed.  First every fingerprint other than
the current one is closed out and deleted; if `lastGenerated` is the zero
value the function returns; otherwise, under the current fingerprint,
every entry whose timestamp is below `lastGenerated.UnixSeconds()` is
closed and removed, and the fingerprint is deleted when its set empties. -/
def notifyLongPollers (notifyMap : NotifyMap) (tipHashes : List Hash)
    (lastGenerated : MsTime) : NotifyMap × List Nat :=
  let tipHashesStr := joinHashesStrings tipHashes
  let closedOther :=
    ((notifyMap.filter (fun e => e.1 != tipHashesStr)).map (fun e => e.2.map Prod.snd)).flatten
  let nm1 := notifyMap.filter (fun e => e.1 == tipHashesStr)
  if lastGenerated = 0 then (nm1, closedOther)
  else
    match lookupNM nm1 tipHashesStr with
    | none => (nm1, closedOther)
    | some channels =>
      let lastGeneratedUnix := unixSeconds lastGenerated
      let closedCur := (channels.filter (fun p => p.1 < lastGeneratedUnix)).map Prod.snd
      let kept := channels.filter (fun p => ¬ p.1 < lastGeneratedUnix)
      if kept.isEmpty then
        (nm1.filter (fun e => e.1 != tipHashesStr), closedOther ++ closedCur)
      else
        (nm1.map (fun e => if e.1 == tipHashesStr then (tipHashesStr, kept) else e),
          closedOther ++ closedCur)

/-- Model of `gbtWorkState.templateUpdateChan(tipHashes, lastGenerated)`: look up (or
lazily create) the channel registered for this (fingerprint, timestamp)
key.  `freshChan` stands for the identity of the `make(chan struct{})`
allocation performed when no channel exists yet.  Returns the updated map
and the channel handed to the caller. -/
def templateUpdateChan (notifyMap : NotifyMap) (tipHashes : List Hash)
    (lastGenerated : Int) (freshChan : Nat) : NotifyMap × Nat :=
  let tipHashesStr := joinHashesStrings tipHashes
  match lookupNM notifyMap tipHashesStr with
  | none => ((tipHashesStr, [(lastGenerated, freshChan)]) :: notifyMap, freshChan)
  | some channels =>
    match lookupNS channels lastGenerated with
    | some c => (notifyMap, c)
    | none =>
      (notifyMap.map
        (fun e => if e.1 == tipHashesStr then (e.1, (lastGenerated, freshChan) :: e.2) else e),
        freshChan)

/-- The §3 invariant: the notify map contains no fingerprint whose signal
set is empty. -/
def noEmptySignalSets (nm : NotifyMap) : Prop := ∀ e ∈ nm, e.2 ≠ []

/-- Channel `c` is registered in `nm` under fingerprint `fp` with
registration timestamp `ts`. -/
def entryIn (nm : NotifyMap) (fp : Str) (ts : Int) (c : Nat) : Prop :=
  ∃ channels, (fp, channels) ∈ nm ∧ (ts, c) ∈ channels

/-- Fingerprint `fp` has an entry (possibly empty) in `nm`. -/
def hasKey (nm : NotifyMap) (fp : Str) : Prop := ∃ channels, (fp, channels) ∈ nm

/-- Key uniqueness: in a map whose keys are `Nodup` (as every Go map is),
filtering for one key yields either nothing or exactly the unique entry. -/
theorem nodupKeys_filter_cases (nm : NotifyMap) (fp : Str)
    (hnd : (nm.map Prod.fst).Nodup) :
    (nm.filter (fun e => e.1 == fp) = [] ∧ ∀ chans, (fp, chans) ∉ nm) ∨
    (∃ chans, nm.filter (fun e => e.1 == fp) = [(fp, chans)] ∧ (fp, chans) ∈ nm ∧
      ∀ chans', (fp, chans') ∈ nm → chans' = chans) := by
  induction nm with
  | nil =>
    left
    exact ⟨rfl, fun chans hc => absurd hc (List.not_mem_nil _)⟩
  | cons e rest ih =>
    rw [List.map_cons, List.nodup_cons] at hnd
    obtain ⟨hne, hnd'⟩ := hnd
    by_cases hfp : e.1 = fp
    · have hrest : rest.filter (fun x => x.1 == fp) = [] := by
        rw [List.filter_eq_nil_iff]
        intro a ha
        simp only [beq_iff_eq]
        intro hafp
        exact hne (by rw [hfp, ← hafp]; exact List.mem_map_of_mem Prod.fst ha)
      have hee : (fp, e.2) = e := by rw [← hfp]
      refine .inr ⟨e.2, ?_, ?_, ?_⟩
      · rw [List.filter_cons_of_pos (by simp [hfp]), hrest, hee]
      · rw [hee]; exact List.mem_cons_self _ _
      · intro chans' hc
        rcases List.mem_cons.mp hc with heq | hmem
        · exact congrArg Prod.snd heq
        · exact absurd (by rw [hfp]; exact List.mem_map_of_mem Prod.fst hmem) hne
    · have hcons : (e :: rest).filter (fun x => x.1 == fp) =
          rest.filter (fun x => x.1 == fp) :=
        List.filter_cons_of_neg (by simp [hfp])
      rcases ih hnd' with ⟨h1, h2⟩ | ⟨chans, h1, h2, h3⟩
      · refine .inl ⟨by rw [hcons, h1], ?_⟩
        intro chans hc
        rcases List.mem_cons.mp hc with heq | hmem
        · exact hfp (congrArg Prod.fst heq).symm
        · exact h2 chans hmem
      · refine .inr ⟨chans, by rw [hcons, h1], List.mem_cons_of_mem _ h2, ?_⟩
        intro chans' hc
        rcases List.mem_cons.mp hc with heq | hmem
        · exact absurd (congrArg Prod.fst heq).symm hfp
        · exact h3 chans' hmem

/-- Membership in the batch of channels closed for stale fingerprints. -/
theorem mem_closedOther (nm : NotifyMap) (fp : Str) (c : Nat) :
    c ∈ ((nm.filter (fun e => e.1 != fp)).map (fun e => e.2.map Prod.snd)).flatten ↔
      ∃ fp' ts, entryIn nm fp' ts c ∧ fp' ≠ fp := by
  rw [List.mem_flatten]
  constructor
  · rintro ⟨l, hl, hc⟩
    rcases List.mem_map.mp hl with ⟨e, hef, rfl⟩
    rcases List.mem_filter.mp hef with ⟨henm, hne⟩
    rcases List.mem_map.mp hc with ⟨p, hp, rfl⟩
    exact ⟨e.1, p.1, ⟨e.2, henm, hp⟩, by simpa using hne⟩
  · rintro ⟨fp', ts, ⟨channels, hmem, hts⟩, hne⟩
    refine ⟨channels.map Prod.snd, ?_, ?_⟩
    · exact List.mem_map.mpr
        ⟨(fp', channels), List.mem_filter.mpr ⟨hmem, by simpa using hne⟩, rfl⟩
    · exact List.mem_map.mpr ⟨(ts, c), hts, rfl⟩

/-- Evaluation of `notifyLongPollers` when no entry exists for the current
fingerprint. -/
theorem notifyLongPollers_of_no_key (nm : NotifyMap) (tips : List Hash)
    (lastGen : MsTime)
    (hfe : nm.filter (fun e => e.1 == joinHashesStrings tips) = []) :
    notifyLongPollers nm tips lastGen =
      ([], ((nm.filter (fun e => e.1 != joinHashesStrings tips)).map
        (fun e => e.2.map Prod.snd)).flatten) := by
  unfold notifyLongPollers
  simp only [hfe]
  split
  · rfl
  · rfl

/-- Evaluation of `notifyLongPollers` on the zero last-update time when the
current fingerprint has an entry. -/
theorem notifyLongPollers_of_key_zero (nm : NotifyMap) (tips : List Hash)
    (chans : NotifySet)
    (hfe : nm.filter (fun e => e.1 == joinHashesStrings tips) =
      [(joinHashesStrings tips, chans)]) :
    notifyLongPollers nm tips 0 =
      ([(joinHashesStrings tips, chans)],
        ((nm.filter (fun e => e.1 != joinHashesStrings tips)).map
          (fun e => e.2.map Prod.snd)).flatten) := by
  unfold notifyLongPollers
  simp only [hfe]
  simp

/-- Evaluation of `notifyLongPollers` on a nonzero last-update time when the
current fingerprint has an entry whose surviving set empties. -/
theorem notifyLongPollers_of_key_empties (nm : NotifyMap) (tips : List Hash)
    (lastGen : MsTime) (chans : NotifySet) (h0 : lastGen ≠ 0)
    (hfe : nm.filter (fun e => e.1 == joinHashesStrings tips) =
      [(joinHashesStrings tips, chans)])
    (hk : chans.filter (fun p => ¬ p.1 < unixSeconds lastGen) = []) :
    notifyLongPollers nm tips lastGen =
      ([], ((nm.filter (fun e => e.1 != joinHashesStrings tips)).map
          (fun e => e.2.map Prod.snd)).flatten ++
        (chans.filter (fun p => p.1 < unixSeconds lastGen)).map Prod.snd) := by
  unfold notifyLongPollers
  simp only [hfe]
  rw [if_neg h0]
  simp only [lookupNM]
  simp [hk]
  intro x x1 hx
  have hfail := List.filter_eq_nil_iff.mp hk _ hx
  simpa using hfail

/-- Evaluation of `notifyLongPollers` on a nonzero last-update time when the
current fingerprint has an entry with survivors. -/
theorem notifyLongPollers_of_key_survives (nm : NotifyMap) (tips : List Hash)
    (lastGen : MsTime) (chans : NotifySet) (h0 : lastGen ≠ 0)
    (hfe : nm.filter (fun e => e.1 == joinHashesStrings tips) =
      [(joinHashesStrings tips, chans)])
    (hk : chans.filter (fun p => ¬ p.1 < unixSeconds lastGen) ≠ []) :
    notifyLongPollers nm tips lastGen =
      ([(joinHashesStrings tips, chans.filter (fun p => ¬ p.1 < unixSeconds lastGen))],
        ((nm.filter (fun e => e.1 != joinHashesStrings tips)).map
          (fun e => e.2.map Prod.snd)).flatten ++
        (chans.filter (fun p => p.1 < unixSeconds lastGen)).map Prod.snd) := by
  unfold notifyLongPollers
  simp only [hfe]
  rw [if_neg h0]
  simp only [lookupNM]
  have hk' : (chans.filter (fun p => ¬ p.1 < unixSeconds lastGen)).isEmpty = false := by
    rw [Bool.eq_false_iff]
    intro hI
    exact hk (List.isEmpty_iff.mp hI)
  simp [hk']
  rcases List.exists_mem_of_ne_nil _ hk with ⟨p, hp⟩
  rcases List.mem_filter.mp hp with ⟨hpc, hplt⟩
  exact ⟨p.1, ⟨p.2, hpc⟩, le_of_not_lt (by simpa using hplt)⟩

/-- C5: complete characterisation of one `notifyLongPollers` call on a map
with unique keys (as every Go map has).  A channel is fired exactly when it
is registered under a fingerprint other than the current one, or — when the
last-update time is nonzero — under the current fingerprint with a
registration timestamp strictly below the last-update time's Unix seconds;
the surviving registrations are exactly the current-fingerprint entries not
fired; and, for nonzero last-update time, a fingerprint entry survives only
if it is the current one and keeps at least one signal. -/
theorem notifyLongPollers_spec (nm : NotifyMap) (tips : List Hash) (lastGen : MsTime)
    (hnd : (nm.map Prod.fst).Nodup) :
    (∀ c : Nat, c ∈ (notifyLongPollers nm tips lastGen).2 ↔
       ∃ fp ts, entryIn nm fp ts c ∧
         (fp ≠ joinHashesStrings tips ∨ (lastGen ≠ 0 ∧ ts < unixSeconds lastGen))) ∧
    (∀ fp ts c, entryIn (notifyLongPollers nm tips lastGen).1 fp ts c ↔
       (fp = joinHashesStrings tips ∧ entryIn nm fp ts c ∧
         (lastGen = 0 ∨ ¬ ts < unixSeconds lastGen))) ∧
    (lastGen ≠ 0 → ∀ fp, hasKey (notifyLongPollers nm tips lastGen).1 fp ↔
       (fp = joinHashesStrings tips ∧
         ∃ chans, (fp, chans) ∈ nm ∧ ∃ p ∈ chans, ¬ p.1 < unixSeconds lastGen)) := by
  rcases nodupKeys_filter_cases nm (joinHashesStrings tips) hnd with
    ⟨hfe, hno⟩ | ⟨chans, hfe, hmem, huniq⟩
  · simp only [notifyLongPollers_of_no_key _ _ _ hfe]
    refine ⟨?_, ?_, ?_⟩
    · intro c
      rw [mem_closedOther]
      constructor
      · rintro ⟨fp, ts, hin, hne⟩
        exact ⟨fp, ts, hin, Or.inl hne⟩
      · rintro ⟨fp, ts, hin, hor⟩
        refine ⟨fp, ts, hin, fun hfp => ?_⟩
        subst hfp
        rcases hin with ⟨channels, hc, _⟩
        exact hno channels hc
    · intro fp ts c
      constructor
      · rintro ⟨channels, hc, _⟩
        exact absurd hc (List.not_mem_nil _)
      · rintro ⟨rfl, ⟨channels, hc, _⟩, _⟩
        exact absurd hc (hno channels)
    · intro _ fp
      constructor
      · rintro ⟨channels, hc⟩
        exact absurd hc (List.not_mem_nil _)
      · rintro ⟨rfl, chans', hc, _⟩
        exact absurd hc (hno chans')
  · by_cases h0 : lastGen = 0
    · subst h0
      simp only [notifyLongPollers_of_key_zero _ _ _ hfe]
      refine ⟨?_, ?_, ?_⟩
      · intro c
        rw [mem_closedOther]
        constructor
        · rintro ⟨fp, ts, hin, hne⟩
          exact ⟨fp, ts, hin, Or.inl hne⟩
        · rintro ⟨fp, ts, hin, hne | ⟨h00, _⟩⟩
          · exact ⟨fp, ts, hin, hne⟩
          · exact absurd rfl h00
      · intro fp ts c
        constructor
        · rintro ⟨channels, hc, hts⟩
          rcases List.mem_singleton.mp hc with heq
          have h1 : fp = joinHashesStrings tips := congrArg Prod.fst heq
          have h2 : channels = chans := congrArg Prod.snd heq
          subst h1
          subst h2
          exact ⟨rfl, ⟨channels, hmem, hts⟩, Or.inl trivial⟩
        · rintro ⟨rfl, ⟨channels, hcm, hts⟩, _⟩
          have h2 := huniq channels hcm
          subst h2
          exact ⟨channels, List.mem_singleton.mpr rfl, hts⟩
      · intro h0'
        exact absurd rfl h0'
    · have hfired : ∀ c : Nat,
          c ∈ ((nm.filter (fun e => e.1 != joinHashesStrings tips)).map
                (fun e => e.2.map Prod.snd)).flatten ++
              (chans.filter (fun p => p.1 < unixSeconds lastGen)).map Prod.snd ↔
            ∃ fp ts, entryIn nm fp ts c ∧
              (fp ≠ joinHashesStrings tips ∨ (lastGen ≠ 0 ∧ ts < unixSeconds lastGen)) := by
        intro c
        rw [List.mem_append, mem_closedOther]
        constructor
        · rintro (⟨fp, ts, hin, hne⟩ | hcc)
          · exact ⟨fp, ts, hin, Or.inl hne⟩
          · rcases List.mem_map.mp hcc with ⟨p, hpf, rfl⟩
            rcases List.mem_filter.mp hpf with ⟨hpc, hplt⟩
            exact ⟨joinHashesStrings tips, p.1, ⟨chans, hmem, hpc⟩,
              Or.inr ⟨h0, by simpa using hplt⟩⟩
        · rintro ⟨fp, ts, ⟨channels, hcm, hts⟩, hor⟩
          by_cases hfp : fp = joinHashesStrings tips
          · subst hfp
            have h2 := huniq channels hcm
            subst h2
            rcases hor with hne | ⟨_, hlt⟩
            · exact absurd rfl hne
            · exact Or.inr (List.mem_map.mpr
                ⟨(ts, c), List.mem_filter.mpr ⟨hts, by simpa using hlt⟩, rfl⟩)
          · exact Or.inl ⟨fp, ts, ⟨channels, hcm, hts⟩, hfp⟩
      by_cases hkE : chans.filter (fun p => ¬ p.1 < unixSeconds lastGen) = []
      · simp only [notifyLongPollers_of_key_empties _ _ _ _ h0 hfe hkE]
        refine ⟨hfired, ?_, ?_⟩
        · intro fp ts c
          constructor
          · rintro ⟨channels, hc, _⟩
            exact absurd hc (List.not_mem_nil _)
          · rintro ⟨rfl, ⟨channels, hcm, hts⟩, hor⟩
            have h2 := huniq channels hcm
            subst h2
            rcases hor with h00 | hnlt
            · exact absurd h00 h0
            · have hfail := List.filter_eq_nil_iff.mp hkE (ts, c) hts
              have hlt : ts < unixSeconds lastGen := by simpa using hfail
              exact absurd hlt hnlt
        · intro _ fp
          constructor
          · rintro ⟨channels, hc⟩
            exact absurd hc (List.not_mem_nil _)
          · rintro ⟨rfl, chans', hcm, p, hpc, hnlt⟩
            have h2 := huniq chans' hcm
            subst h2
            have hpf : p ∈ chans'.filter (fun p => ¬ p.1 < unixSeconds lastGen) :=
              List.mem_filter.mpr ⟨hpc, by simpa using hnlt⟩
            rw [hkE] at hpf
            exact absurd hpf (List.not_mem_nil _)
      · simp only [notifyLongPollers_of_key_survives _ _ _ _ h0 hfe hkE]
        refine ⟨hfired, ?_, ?_⟩
        · intro fp ts c
          constructor
          · rintro ⟨channels, hc, hts⟩
            rcases List.mem_singleton.mp hc with heq
            have h1 : fp = joinHashesStrings tips := congrArg Prod.fst heq
            have h2 : channels = chans.filter (fun p => ¬ p.1 < unixSeconds lastGen) :=
              congrArg Prod.snd heq
            subst h1
            rw [h2] at hts
            rcases List.mem_filter.mp hts with ⟨htc, hnlt⟩
            exact ⟨rfl, ⟨chans, hmem, htc⟩, Or.inr (by simpa using hnlt)⟩
          · rintro ⟨rfl, ⟨channels, hcm, hts⟩, hor⟩
            have h2 := huniq channels hcm
            subst h2
            rcases hor with h00 | hnlt
            · exact absurd h00 h0
            · exact ⟨channels.filter (fun p => ¬ p.1 < unixSeconds lastGen),
                List.mem_singleton.mpr rfl,
                List.mem_filter.mpr ⟨hts, by simpa using hnlt⟩⟩
        · intro _ fp
          constructor
          · rintro ⟨channels, hc⟩
            rcases List.mem_singleton.mp hc with heq
            have h1 : fp = joinHashesStrings tips := congrArg Prod.fst heq
            subst h1
            rcases List.exists_mem_of_ne_nil _ hkE with ⟨p, hp⟩
            rcases List.mem_filter.mp hp with ⟨hpc, hnlt⟩
            exact ⟨rfl, chans, hmem, p, hpc, by simpa using hnlt⟩
          · rintro ⟨rfl, _, _, _, _, _⟩
            exact ⟨chans.filter (fun p => ¬ p.1 < unixSeconds lastGen),
              List.mem_singleton.mpr rfl⟩

/-- Closed witness for the `notifyLongPollers` characterisation: with a
stale fingerprint `"a"` and a current fingerprint `"b"` holding one entry
below the update time, both channels fire. -/
theorem notifyLongPollers_spec_witness :
    (([("a".toList, [((1 : Int), 7)]), ("b".toList, [((2 : Int), 9)])].map
        Prod.fst).Nodup) ∧
    7 ∈ (notifyLongPollers [("a".toList, [((1 : Int), 7)]),
          ("b".toList, [((2 : Int), 9)])] ["b".toList] 5000).2 ∧
    9 ∈ (notifyLongPollers [("a".toList, [((1 : Int), 7)]),
          ("b".toList, [((2 : Int), 9)])] ["b".toList] 5000).2 := by
  refine ⟨by decide, ?_, ?_⟩
  · exact ((notifyLongPollers_spec [("a".toList, [((1 : Int), 7)]),
        ("b".toList, [((2 : Int), 9)])] ["b".toList] 5000 (by decide)).1 7).mpr
      ⟨"a".toList, 1, ⟨[((1 : Int), 7)], by decide, by decide⟩, Or.inl (by decide)⟩
  · exact ((notifyLongPollers_spec [("a".toList, [((1 : Int), 7)]),
        ("b".toList, [((2 : Int), 9)])] ["b".toList] 5000 (by decide)).1 9).mpr
      ⟨"b".toList, 2, ⟨[((2 : Int), 9)], by decide, by decide⟩,
        Or.inr ⟨by decide, by decide⟩⟩

/-- C9: subscription and notification both preserve the invariant that no
fingerprint in the notify map carries an empty signal set —
`templateUpdateChan` only ever creates a fingerprint entry together with
a channel, and `notifyLongPollers` deletes a fingerprint whose set
empties. -/
theorem notify_registry_no_empty_sets (nm : NotifyMap) (tips : List Hash)
    (lastGen : MsTime) (t : Int) (ch : Nat) (h : noEmptySignalSets nm) :
    noEmptySignalSets (templateUpdateChan nm tips t ch).1 ∧
    noEmptySignalSets (notifyLongPollers nm tips lastGen).1 := by
  constructor
  · intro e he
    rcases hl : lookupNM nm (joinHashesStrings tips) with _ | channels
    · simp only [templateUpdateChan, hl] at he
      rcases List.mem_cons.mp he with rfl | hmem
      · simp
      · exact h e hmem
    · rcases hs : lookupNS channels t with _ | c
      · simp only [templateUpdateChan, hl, hs] at he
        rcases List.mem_map.mp he with ⟨e', he', heq⟩
        by_cases hk : e'.1 == joinHashesStrings tips
        · rw [if_pos hk] at heq
          subst heq
          simp
        · rw [if_neg hk] at heq
          subst heq
          exact h e' he'
      · simp only [templateUpdateChan, hl, hs] at he
        exact h e he
  · intro e he
    by_cases h0 : lastGen = 0
    · simp only [notifyLongPollers, if_pos h0] at he
      exact h e (List.mem_filter.mp he).1
    · rcases hl : lookupNM (nm.filter (fun e => e.1 == joinHashesStrings tips))
          (joinHashesStrings tips) with _ | channels
      · simp only [notifyLongPollers, if_neg h0, hl] at he
        exact h e (List.mem_filter.mp he).1
      · by_cases hk :
          (channels.filter (fun p => ¬ p.1 < unixSeconds lastGen)).isEmpty
        · simp only [notifyLongPollers, if_neg h0, hl, hk, if_pos] at he
          exact h e (List.mem_filter.mp (List.mem_filter.mp he).1).1
        · simp only [notifyLongPollers, if_neg h0, hl, hk, Bool.false_eq_true,
            if_false] at he
          rcases List.mem_map.mp he with ⟨e', he', heq⟩
          by_cases hfp : e'.1 == joinHashesStrings tips
          · rw [if_pos hfp] at heq
            subst heq
            intro hnil
            rw [List.isEmpty_iff] at hk
            exact hk hnil
          · rw [if_neg hfp] at heq
            subst heq
            exact h e' (List.mem_filter.mp he').1

/-- Closed witness for the invariant-preservation theorem at a concrete
one-entry notify map. -/
theorem notify_registry_no_empty_sets_witness :
    noEmptySignalSets ((templateUpdateChan [("a".toList, [(1, 5)])] [] 2 9).1) ∧
    noEmptySignalSets ((notifyLongPollers [("a".toList, [(1, 5)])] [] 7000).1) :=
  notify_registry_no_empty_sets [("a".toList, [(1, 5)])] [] 7000 2 9
    (by unfold noEmptySignalSets; decide)

/-- A transaction of a block template.  `txID` models `tx.TxID()` (an
opaque hash, abstracted to a `Nat`); `txIns` the `PreviousOutpoint.TxID`
of each input, in input order; `dataHex` the hex of the wire
serialization (`hex.EncodeToString` of `tx.Serialize`, which this model
carries as data; serialization of an in-memory transaction does not fail
on the inputs reachable here). -/
structure TxModel where
  txID : Nat
  txIns : List Nat
  dataHex : Str
deriving DecidableEq

/-- The header fields of `wire.BlockHeader` that this RPC core reads or
writes.  Fields only formatted for display (merkle roots, UTXO
commitment, version, bits) are not claimed about and are omitted. -/
structure BlockHeaderModel where
  parentHashes : List Hash
  timestamp : MsTime
  bits : Nat
  nonce : Nat
deriving DecidableEq

/-- Model of `wire.MsgBlock`, restricted to the fields the RPC core touches. -/
structure MsgBlockModel where
  header : BlockHeaderModel
  transactions : List TxModel
deriving DecidableEq

/-- Model of `mining.BlockTemplate`. -/
structure BlockTemplateModel where
  block : MsgBlockModel
  txMasses : List Nat
  fees : List Nat
  height : Nat
deriving DecidableEq

/-- The `rpcmodel` error codes reachable from this file.  Error message
strings are human-readable text and are not modelled. -/
inductive RPCErrorCode where
  | errRPCClientNotConnected
  | errRPCInvalidParameter
  | errRPCType
  | errRPCDeserialization
  | errRPCVerify
  | errRPCOutOfRange
  | errRPCInternal
deriving DecidableEq

/-- Model of `rpcmodel.GetBlockTemplateResultTx`.  `id` is the transaction id (the
hex `String()` of the id is a faithful rendering of the abstract id). -/
structure ResultTx where
  data : Str
  id : Nat
  depends : List Int
  mass : Nat
  fee : Nat
deriving DecidableEq

/-- Constant `gbtNonceRange`. -/
def gbtNonceRange : Str := "000000000000ffffffffffff".toList

/-- Constant `gbtMutableFields`. -/
def gbtMutableFields : List Str :=
  ["time".toList, "transactions/add".toList, "parentblock".toList,
    "coinbase/append".toList]

/-- Constant `gbtCapabilities`. -/
def gbtCapabilities : List Str := ["proposal".toList]

/-- Constant `gbtRegenerateSeconds`. -/
def gbtRegenerateSeconds : Int := 60

/-- Model of `rpcmodel.GetBlockTemplateResult`, restricted to the fields computed
from modelled data.  `Bits`, `Target`, the merkle roots, the UTXO
commitment, `Version` and `MassLimit` are display renderings of header
fields or external constants (`util.CompactToBig`, `wire.MaxMassPerBlock`)
that no claim concerns, and are omitted. -/
structure GetBlockTemplateResult where
  curTime : MsTime
  height : Nat
  parentHashes : List Str
  transactions : List ResultTx
  longPollID : Str
  minTime : MsTime
  maxTime : MsTime
  mutableFields : List Str
  nonceRange : Str
  capabilities : List Str
  isSynced : Bool
deriving DecidableEq

/-- Go map lookup in the scratch `txIndex` map (`map[daghash.TxID]int64`);
the model prepends on write, so the head is the latest write, matching
Go's overwrite semantics. -/
def lookupTxIndex : List (Nat × Int) → Nat → Option Int
  | [], _ => none
  | p :: rest, k => if p.1 = k then some p.2 else lookupTxIndex rest k

/-- First-occurrence deduplication: the key set of Go's `dependsMap`, in
insertion order.  (Go iterates map keys in an unspecified order; this
model fixes insertion order as one admissible order.  All confirmed
properties below are order-independent.) -/
def firstOccDedup (seen : List Int) : List Int → List Int
  | [] => []
  | x :: xs =>
    if x ∈ seen then firstOccDedup seen xs
    else x :: firstOccDedup (x :: seen) xs

/-- The `dependsMap` computation for one transaction: indices of the
already-indexed transactions referenced by the inputs, deduplicated. -/
def dependsOf (txIndex : List (Nat × Int)) (txIns : List Nat) : List Int :=
  firstOccDedup [] (txIns.filterMap (lookupTxIndex txIndex))

/-- The transaction-conversion loop of `blockTemplateResult`
(lines 656–692): note that the loop body is executed for **every** `i`,
including `i = 0`, and the current transaction is entered into `txIndex`
before its own inputs are scanned. -/
def buildResultTxsAux (masses fees : List Nat) :
    List (Nat × Int) → Nat → List TxModel → List ResultTx
  | _, _, [] => []
  | txIndex, i, tx :: rest =>
    let txIndex1 := (tx.txID, (i : Int)) :: txIndex
    { data := tx.dataHex, id := tx.txID, depends := dependsOf txIndex1 tx.txIns,
      mass := masses.getD i 0, fee := fees.getD i 0 } ::
      buildResultTxsAux masses fees txIndex1 (i + 1) rest

/-- The full transaction list of the reply. -/
def buildResultTxs (txs : List TxModel) (masses fees : List Nat) : List ResultTx :=
  buildResultTxsAux masses fees [] 0 txs

/-- Model of `gbtWorkState`: the fields shared between invocations.  `tipHashes`
is `Option`-valued because the Go field is a slice that the code
deliberately sets to `nil` as an error sentinel. -/
structure GbtWorkState where
  lastTxUpdate : MsTime
  lastGenerated : MsTime
  tipHashes : Option (List Hash)
  minTimestamp : MsTime
  template : Option BlockTemplateModel
  notifyMap : NotifyMap
  payAddress : Str
deriving DecidableEq

/-- The values the external collaborators return during one handler
invocation.  The clock is modelled as constant for the duration of a
call (`mstime.Now()` is read a few milliseconds apart in the source).
`extraNonce = none` models a `random.Uint64()` failure;
`builtTemplate` the result of `generator.NewBlockTemplate`;
`updatedBlockTime` the timestamp that `generator.UpdateBlockTime`
writes into the header. -/
structure GbtEnv where
  now : MsTime
  dagNow : MsTime
  timestampDeviationTolerance : Int
  mempoolLastUpdated : MsTime
  dagTipHashes : List Hash
  extraNonce : Option Nat
  builtTemplate : Except Str BlockTemplateModel
  nextBlockMinimumTime : MsTime
  updatedBlockTime : MsTime
  isSynced : Bool

/-- Lines 529–532: substitute *now* for a zero mempool timestamp. -/
def effectiveLastTxUpdate (env : GbtEnv) : MsTime :=
  if env.mempoolLastUpdated = 0 then env.now else env.mempoolLastUpdated

/-- Model of `daghash.AreEqual`: length check plus element-wise hash equality,
i.e. list equality. -/
def areEqual (a b : List Hash) : Bool := a == b

/-- The refresh path of `updateBlockTemplate` (lines 598–618): update the
header timestamp via `generator.UpdateBlockTime` and zero the nonce. -/
def refreshTemplate (env : GbtEnv) (t : BlockTemplateModel) : BlockTemplateModel :=
  { t with block := { t.block with header :=
      { t.block.header with timestamp := env.updatedBlockTime, nonce := 0 } } }

/-- Model of `gbtWorkState.updateBlockTemplate` (lines 527–622).  Returns the
mutated state and either an RPC error or the list of channels fired by
the `notifyLongPollers` call of a successful regeneration (empty for a
refresh).  On the error paths the state keeps the `tipHashes = nil`
sentinel, exactly as the in-place Go mutation does. -/
def updateBlockTemplate (st : GbtWorkState) (env : GbtEnv) (payAddr : Str) :
    GbtWorkState × Except RPCErrorCode (List Nat) :=
  let lastTxUpdate := effectiveLastTxUpdate env
  let tipHashes := env.dagTipHashes
  if st.template = none ∨ st.tipHashes = none ∨
      areEqual (st.tipHashes.getD []) tipHashes = false ∨
      st.payAddress ≠ payAddr ∨
      (st.lastTxUpdate ≠ lastTxUpdate ∧
        env.now > st.lastGenerated + 1000 * gbtRegenerateSeconds) then
    let st1 := { st with tipHashes := none }
    match env.extraNonce with
    | none => (st1, .error .errRPCInternal)
    | some _ =>
      match env.builtTemplate with
      | .error _ => (st1, .error .errRPCInternal)
      | .ok template =>
        let st2 := { st1 with
          template := some template,
          lastGenerated := env.now,
          lastTxUpdate := lastTxUpdate,
          tipHashes := some tipHashes,
          minTimestamp := env.nextBlockMinimumTime,
          payAddress := payAddr }
        let nr := notifyLongPollers st2.notifyMap tipHashes lastTxUpdate
        ({ st2 with notifyMap := nr.1 }, .ok nr.2)
  else
    match st.template with
    | none => (st, .error .errRPCInternal)
    | some t => ({ st with template := some (refreshTemplate env t) }, .ok [])

/-- Model of `gbtWorkState.blockTemplateResult` (lines 629–732).  The `none`
template case cannot be reached after a successful
`updateBlockTemplate`; the Go code would dereference nil there, which
the model renders as an internal error. -/
def blockTemplateResult (st : GbtWorkState) (env : GbtEnv) :
    Except RPCErrorCode GetBlockTemplateResult :=
  match st.template with
  | none => .error .errRPCInternal
  | some template =>
    let header := template.block.header
    let maxTime := env.dagNow + env.timestampDeviationTolerance
    if header.timestamp > maxTime then .error .errRPCOutOfRange
    else
      .ok {
        curTime := header.timestamp,
        height := template.height,
        parentHashes := header.parentHashes,
        transactions := buildResultTxs template.block.transactions
          template.txMasses template.fees,
        longPollID := encodeLongPollID (st.tipHashes.getD []) st.payAddress
          st.lastGenerated,
        minTime := st.minTimestamp,
        maxTime := maxTime,
        mutableFields := gbtMutableFields,
        nonceRange := gbtNonceRange,
        capabilities := gbtCapabilities,
        isSynced := env.isSynced }

/-- The three ways `blockTemplateOrLongPollChan` can leave: an immediate
reply, an RPC error, or a registered wait channel (on which the handler
then suspends). -/
inductive LongPollOutcome where
  | reply (r : GetBlockTemplateResult)
  | rpcError (code : RPCErrorCode)
  | waitChan (c : Nat)
deriving DecidableEq

/-- Model of `blockTemplateOrLongPollChan` (lines 213–262) after its
`updateBlockTemplate` call succeeded: decode the supplied ID (a decode
failure falls back to the current template), compare against the current
template's parent hashes and generation time, and either reply now or
register for notification.  `freshChan` models the channel allocated by
`templateUpdateChan` if none exists.  A nil template would make the Go
code panic at line 241; it is unreachable after a successful update and
the decode-failure path never touches it. -/
def blockTemplateOrLongPollChan (st : GbtWorkState) (env : GbtEnv)
    (longPollID : Str) (freshChan : Nat) : GbtWorkState × LongPollOutcome :=
  match decodeLongPollID longPollID with
  | .error _ =>
    (st, match blockTemplateResult st env with
         | .ok r => .reply r
         | .error e => .rpcError e)
  | .ok (parentHashes, lastGenerated) =>
    let templateParents := (st.template.map (fun t => t.block.header.parentHashes)).getD []
    if areEqual templateParents parentHashes = false ∨
        lastGenerated ≠ unixSeconds st.lastGenerated then
      (st, match blockTemplateResult st env with
           | .ok r => .reply r
           | .error e => .rpcError e)
    else
      let r := templateUpdateChan st.notifyMap parentHashes lastGenerated freshChan
      ({ st with notifyMap := r.1 }, .waitChan r.2)

/-- The `blockdag.RuleError` codes named in the `dagErrToGBTErrString`
switch.  `errUnlistedRuleCode` — modelled from the spec: the `blockdag`
error-code enumeration lives outside `src/`; §4.2 stipulates that rule
errors "whose code is not in the table" exist, and this constructor
stands for any such code. -/
inductive RuleErrorCode where
  | errDuplicateBlock
  | errBlockMassTooHigh
  | errBlockVersionTooOld
  | errTimeTooOld
  | errTimeTooNew
  | errDifficultyTooLow
  | errUnexpectedDifficulty
  | errHighHash
  | errBadMerkleRoot
  | errFinalityPointTimeTooOld
  | errNoTransactions
  | errNoTxInputs
  | errTxMassTooHigh
  | errBadTxOutValue
  | errDuplicateTxInputs
  | errBadTxInput
  | errMissingTxOut
  | errUnfinalizedTx
  | errDuplicateTx
  | errOverwriteTx
  | errImmatureSpend
  | errSpendTooHigh
  | errBadFees
  | errTooManySigOps
  | errFirstTxNotCoinbase
  | errMultipleCoinbases
  | errBadCoinbasePayloadLen
  | errScriptMalformed
  | errScriptValidation
  | errParentBlockUnknown
  | errInvalidAncestorBlock
  | errParentBlockNotCurrentTips
  /-- Modelled from the spec: a representative of the rule-error codes
  that exist in `blockdag` but are absent from the mapping table. -/
  | errUnlistedRuleCode
deriving DecidableEq

/-- An error coming back from the DAG engine: either a
`blockdag.RuleError` (with its code and message text) or any other
error (with its message text).  `text` models `err.Error()`. -/
inductive DagError where
  | ruleError (code : RuleErrorCode) (text : Str)
  | plainError (text : Str)
deriving DecidableEq

/-- Go `errors.As(err, &blockdag.RuleError{})`. -/
def isRuleError : DagError → Bool
  | .ruleError _ _ => true
  | .plainError _ => false

/-- Model of `dagErrToGBTErrString` (lines 325–401): the switch over rule-error
codes, with the generic `"rejected: " + err.Error()` fallback for
non-rule errors and for rule errors with an unlisted code. -/
def dagErrToGBTErrString : DagError → Str
  | .plainError text => "rejected: ".toList ++ text
  | .ruleError code text =>
    match code with
    | .errDuplicateBlock => "duplicate".toList
    | .errBlockMassTooHigh => "bad-blk-mass".toList
    | .errBlockVersionTooOld => "bad-version".toList
    | .errTimeTooOld => "time-too-old".toList
    | .errTimeTooNew => "time-too-new".toList
    | .errDifficultyTooLow => "bad-diffbits".toList
    | .errUnexpectedDifficulty => "bad-diffbits".toList
    | .errHighHash => "high-hash".toList
    | .errBadMerkleRoot => "bad-txnmrklroot".toList
    | .errFinalityPointTimeTooOld => "finality-point-time-too-old".toList
    | .errNoTransactions => "bad-txns-none".toList
    | .errNoTxInputs => "bad-txns-noinputs".toList
    | .errTxMassTooHigh => "bad-txns-mass".toList
    | .errBadTxOutValue => "bad-txns-outputvalue".toList
    | .errDuplicateTxInputs => "bad-txns-dupinputs".toList
    | .errBadTxInput => "bad-txns-badinput".toList
    | .errMissingTxOut => "bad-txns-missinginput".toList
    | .errUnfinalizedTx => "bad-txns-unfinalizedtx".toList
    | .errDuplicateTx => "bad-txns-duplicate".toList
    | .errOverwriteTx => "bad-txns-overwrite".toList
    | .errImmatureSpend => "bad-txns-maturity".toList
    | .errSpendTooHigh => "bad-txns-highspend".toList
    | .errBadFees => "bad-txns-fees".toList
    | .errTooManySigOps => "high-sigops".toList
    | .errFirstTxNotCoinbase => "bad-txns-nocoinbase".toList
    | .errMultipleCoinbases => "bad-txns-multicoinbase".toList
    | .errBadCoinbasePayloadLen => "bad-cb-length".toList
    | .errScriptMalformed => "bad-script-malformed".toList
    | .errScriptValidation => "bad-script-validate".toList
    | .errParentBlockUnknown => "parent-blk-not-found".toList
    | .errInvalidAncestorBlock => "bad-parentblk".toList
    | .errParentBlockNotCurrentTips => "inconclusive-not-best-parentblk".toList
    | .errUnlistedRuleCode => "rejected: ".toList ++ text

/-- The association stipulated by spec §4.2, written from the spec's
table (the spec side of the refinement statement for C7): each
enumerated rule-error code maps to its fixed protocol string, every
other code to `none`. -/
def specRejectionString : RuleErrorCode → Option Str
  | .errDuplicateBlock => some "duplicate".toList
  | .errBlockMassTooHigh => some "bad-blk-mass".toList
  | .errBlockVersionTooOld => some "bad-version".toList
  | .errTimeTooOld => some "time-too-old".toList
  | .errTimeTooNew => some "time-too-new".toList
  | .errDifficultyTooLow => some "bad-diffbits".toList
  | .errUnexpectedDifficulty => some "bad-diffbits".toList
  | .errHighHash => some "high-hash".toList
  | .errBadMerkleRoot => some "bad-txnmrklroot".toList
  | .errFinalityPointTimeTooOld => some "finality-point-time-too-old".toList
  | .errNoTransactions => some "bad-txns-none".toList
  | .errNoTxInputs => some "bad-txns-noinputs".toList
  | .errTxMassTooHigh => some "bad-txns-mass".toList
  | .errBadTxOutValue => some "bad-txns-outputvalue".toList
  | .errDuplicateTxInputs => some "bad-txns-dupinputs".toList
  | .errBadTxInput => some "bad-txns-badinput".toList
  | .errMissingTxOut => some "bad-txns-missinginput".toList
  | .errUnfinalizedTx => some "bad-txns-unfinalizedtx".toList
  | .errDuplicateTx => some "bad-txns-duplicate".toList
  | .errOverwriteTx => some "bad-txns-overwrite".toList
  | .errImmatureSpend => some "bad-txns-maturity".toList
  | .errSpendTooHigh => some "bad-txns-highspend".toList
  | .errBadFees => some "bad-txns-fees".toList
  | .errTooManySigOps => some "high-sigops".toList
  | .errFirstTxNotCoinbase => some "bad-txns-nocoinbase".toList
  | .errMultipleCoinbases => some "bad-txns-multicoinbase".toList
  | .errBadCoinbasePayloadLen => some "bad-cb-length".toList
  | .errScriptMalformed => some "bad-script-malformed".toList
  | .errScriptValidation => some "bad-script-validate".toList
  | .errParentBlockUnknown => some "parent-blk-not-found".toList
  | .errInvalidAncestorBlock => some "bad-parentblk".toList
  | .errParentBlockNotCurrentTips => some "inconclusive-not-best-parentblk".toList
  | .errUnlistedRuleCode => none

/-- The closed set of fixed rejection strings from §4.2. -/
def specRejectionSet : List Str :=
  ["duplicate".toList, "bad-blk-mass".toList, "bad-version".toList,
   "time-too-old".toList, "time-too-new".toList, "bad-diffbits".toList,
   "high-hash".toList, "bad-txnmrklroot".toList,
   "finality-point-time-too-old".toList, "bad-txns-none".toList,
   "bad-txns-noinputs".toList, "bad-txns-mass".toList,
   "bad-txns-outputvalue".toList, "bad-txns-dupinputs".toList,
   "bad-txns-badinput".toList, "bad-txns-missinginput".toList,
   "bad-txns-unfinalizedtx".toList, "bad-txns-duplicate".toList,
   "bad-txns-overwrite".toList, "bad-txns-maturity".toList,
   "bad-txns-highspend".toList, "bad-txns-fees".toList,
   "high-sigops".toList, "bad-txns-nocoinbase".toList,
   "bad-txns-multicoinbase".toList, "bad-cb-length".toList,
   "bad-script-malformed".toList, "bad-script-validate".toList,
   "parent-blk-not-found".toList, "bad-parentblk".toList,
   "inconclusive-not-best-parentblk".toList]

/-- The outcome of a proposal-mode call: an accepted block (`nil, nil` in
Go), a successful reply carrying a rejection string, or an RPC error. -/
inductive ProposalOutcome where
  | accepted
  | rejected (reason : Str)
  | rpcError (code : RPCErrorCode)
deriving DecidableEq

/-- The parent-hash check and connect-check of
`handleGetBlockTemplateProposal` (lines 298–319). -/
def checkProposalBlock (dagTips parentHashes : List Hash)
    (connectResult : Except DagError Unit) : ProposalOutcome :=
  if areEqual dagTips parentHashes = false then .rejected "bad-parentblk".toList
  else
    match connectResult with
    | .ok _ => .accepted
    | .error e =>
      if isRuleError e = false then .rpcError .errRPCVerify
      else .rejected (dagErrToGBTErrString e)

/-- Numeric value of a hex digit (`encoding/hex`). -/
def hexCharVal (c : Char) : Option Nat :=
  if c.isDigit then some (c.toNat - 48)
  else if 97 ≤ c.toNat ∧ c.toNat ≤ 102 then some (c.toNat - 87)
  else if 65 ≤ c.toNat ∧ c.toNat ≤ 70 then some (c.toNat - 55)
  else none

/-- Go `hex.DecodeString` on an even-length string: bytes from hex-digit
pairs, `none` on any non-hex character. -/
def hexDecodeStr : Str → Option (List Nat)
  | [] => some []
  | [_] => none
  | a :: b :: rest =>
    match hexCharVal a, hexCharVal b, hexDecodeStr rest with
    | some x, some y, some bs => some ((16 * x + y) :: bs)
    | _, _, _ => none

/-- The collaborators of proposal mode: the DAG's current tips, the wire
deserializer (`wire.MsgBlock.Deserialize`, outside `src/`, modelled as an
oracle on the decoded bytes) and `DAG.CheckConnectBlockTemplate`. -/
structure ProposalEnv where
  dagTipHashes : List Hash
  deserializeBlock : List Nat → Except Str MsgBlockModel
  checkConnectBlockTemplate : MsgBlockModel → Except DagError Unit

/-- Model of `handleGetBlockTemplateProposal` (lines 266–320).  The function never
references `s.gbtWorkState`; the embedding threads the work state through
untouched to make that visible.  Empty data is a `ErrRPCType` failure;
odd-length hex is left-padded with `'0'`; hex-decode and block-decode
failures map to `ErrRPCDeserialization`. -/
def handleGetBlockTemplateProposal (st : GbtWorkState) (env : ProposalEnv)
    (data : Str) : GbtWorkState × ProposalOutcome :=
  if data = [] then (st, .rpcError .errRPCType)
  else
    let hexData := if data.length % 2 ≠ 0 then '0' :: data else data
    match hexDecodeStr hexData with
    | none => (st, .rpcError .errRPCDeserialization)
    | some dataBytes =>
      match env.deserializeBlock dataBytes with
      | .error _ => (st, .rpcError .errRPCDeserialization)
      | .ok msgBlock =>
        (st, checkProposalBlock env.dagTipHashes msgBlock.header.parentHashes
          (env.checkConnectBlockTemplate msgBlock))

/-- Lemma: `daghash.AreEqual` decides list equality. -/
theorem areEqual_eq_false_iff (a b : List Hash) : areEqual a b = false ↔ a ≠ b := by
  simp [areEqual]

/-- C7: the rejection mapper is total — every rule-error code of the §4.2
table maps to its associated fixed protocol string (a member of the
closed set), while a rule error with an unlisted code or a non-rule
error maps to `"rejected: "` followed by the error's text. -/
theorem dagErrToGBTErrString_total (code : RuleErrorCode) (text : Str) :
    dagErrToGBTErrString (.ruleError code text) =
      (specRejectionString code).getD ("rejected: ".toList ++ text) ∧
    (match specRejectionString code with
     | some s => s ∈ specRejectionSet
     | none => True) ∧
    dagErrToGBTErrString (.plainError text) = "rejected: ".toList ++ text := by
  refine ⟨?_, ?_, rfl⟩
  · cases code <;> rfl
  · cases code <;> simp only [specRejectionString] <;> decide

/-- C6: in proposal mode, a parent-hash mismatch yields the successful
reply `"bad-parentblk"`; with matching parents, the connect-check decides
between an accepted (null) reply, a rejection-string reply for a rule
error, and an `ErrRPCVerify` failure for any other error. -/
theorem checkProposalBlock_spec (dagTips parentHashes : List Hash)
    (connectResult : Except DagError Unit) :
    (parentHashes ≠ dagTips →
      checkProposalBlock dagTips parentHashes connectResult =
        .rejected "bad-parentblk".toList) ∧
    (parentHashes = dagTips → connectResult = .ok () →
      checkProposalBlock dagTips parentHashes connectResult = .accepted) ∧
    (parentHashes = dagTips → ∀ c t, connectResult = .error (.ruleError c t) →
      checkProposalBlock dagTips parentHashes connectResult =
        .rejected (dagErrToGBTErrString (.ruleError c t))) ∧
    (parentHashes = dagTips → ∀ t, connectResult = .error (.plainError t) →
      checkProposalBlock dagTips parentHashes connectResult =
        .rpcError .errRPCVerify) := by
  refine ⟨?_, ?_, ?_, ?_⟩
  · intro hne
    unfold checkProposalBlock
    rw [if_pos ((areEqual_eq_false_iff _ _).mpr (fun h => hne h.symm))]
  · rintro rfl rfl
    unfold checkProposalBlock
    rw [if_neg (by simp [areEqual])]
  · rintro rfl c t rfl
    unfold checkProposalBlock
    rw [if_neg (by simp [areEqual])]
    rfl
  · rintro rfl t rfl
    unfold checkProposalBlock
    rw [if_neg (by simp [areEqual])]
    rfl

/-- Closed witness for the proposal-mode characterisation: a block whose
single parent differs from the DAG's single tip is answered with the
fixed string `"bad-parentblk"` even though its connect-check would
succeed. -/
theorem checkProposalBlock_spec_witness :
    (["ab".toList] : List Hash) ≠ ([] : List Hash) ∧
    checkProposalBlock [] ["ab".toList] (.ok ()) =
      .rejected "bad-parentblk".toList :=
  ⟨by decide, (checkProposalBlock_spec [] ["ab".toList] (.ok ())).1 (by decide)⟩

/-- C10: a proposal request with empty data fails with `ErrRPCType` — an
error kind distinct from `ErrRPCDeserialization` — before any hex or
block decoding, and the work state is passed through untouched (the
handler never references it). -/
theorem proposal_emptyData_typeError (st : GbtWorkState) (env : ProposalEnv) :
    handleGetBlockTemplateProposal st env [] = (st, .rpcError .errRPCType) ∧
    RPCErrorCode.errRPCType ≠ RPCErrorCode.errRPCDeserialization :=
  ⟨rfl, by decide⟩

/-- A committed work state whose template holds a coinbase (id 11) and one
further transaction (id 22) spending it. -/
def c2State : GbtWorkState :=
  { lastTxUpdate := 1000, lastGenerated := 2000,
    tipHashes := some ["cd".toList], minTimestamp := 500,
    template := some {
      block := { header := { parentHashes := ["cd".toList], timestamp := 3000,
                             bits := 1, nonce := 0 },
                 transactions := [{ txID := 11, txIns := [], dataHex := "aa".toList },
                                  { txID := 22, txIns := [11], dataHex := "bb".toList }] },
      txMasses := [10, 20], fees := [0, 5], height := 7 },
    notifyMap := [], payAddress := "qq".toList }

/-- An environment under which `blockTemplateResult` passes its time
check. -/
def c2Env : GbtEnv :=
  { now := 3000, dagNow := 3000, timestampDeviationTolerance := 100000,
    mempoolLastUpdated := 1000, dagTipHashes := ["cd".toList],
    extraNonce := some 1, builtTemplate := .error "unused".toList,
    nextBlockMinimumTime := 0, updatedBlockTime := 3000, isSynced := true }

/-- C2: the claim that the reply omits the coinbase fails on the code.
The conversion loop of `blockTemplateResult` iterates from index 0
without skipping the coinbase (contradicting the function's own comments
and the `numTx-1` capacity hint), so a two-transaction template yields a
two-entry reply whose first entry is the coinbase (id 11). -/
theorem blockTemplateResult_includes_coinbase :
    (blockTemplateResult c2State c2Env).map
        (fun r => r.transactions.map (fun t => t.id)) =
      .ok [11, 22] := by
  rfl

/-- The regeneration predicate as the code decides it, phrased in the
spec's vocabulary, with the timing clause as implemented: strictly
*more* than `gbtRegenerateSeconds` wall-clock seconds elapsed. -/
def specRegeneratePredicate (st : GbtWorkState) (env : GbtEnv) (payAddr : Str) :
    Prop :=
  st.template = none ∨ st.tipHashes = none ∨
  st.tipHashes ≠ some env.dagTipHashes ∨
  st.payAddress ≠ payAddr ∨
  (st.lastTxUpdate ≠ effectiveLastTxUpdate env ∧
    env.now > st.lastGenerated + 1000 * gbtRegenerateSeconds)

/-- The regeneration predicate exactly as the claim states it: "at least
60 wall-clock seconds have elapsed", i.e. `≥` in the timing clause. -/
def specRegeneratePredicateStated (st : GbtWorkState) (env : GbtEnv)
    (payAddr : Str) : Prop :=
  st.template = none ∨ st.tipHashes = none ∨
  st.tipHashes ≠ some env.dagTipHashes ∨
  st.payAddress ≠ payAddr ∨
  (st.lastTxUpdate ≠ effectiveLastTxUpdate env ∧
    env.now ≥ st.lastGenerated + 1000 * gbtRegenerateSeconds)

/-- The branch condition of `updateBlockTemplate` coincides with the
spec-worded predicate (with strict timing). -/
theorem regen_condition_iff (st : GbtWorkState) (env : GbtEnv) (payAddr : Str) :
    (st.template = none ∨ st.tipHashes = none ∨
      areEqual (st.tipHashes.getD []) env.dagTipHashes = false ∨
      st.payAddress ≠ payAddr ∨
      (st.lastTxUpdate ≠ effectiveLastTxUpdate env ∧
        env.now > st.lastGenerated + 1000 * gbtRegenerateSeconds)) ↔
    specRegeneratePredicate st env payAddr := by
  unfold specRegeneratePredicate
  cases hth : st.tipHashes with
  | none => simp
  | some h => simp [areEqual_eq_false_iff]

/-- C4 (amended): `updateBlockTemplate` commits a freshly built template
(and notifies long-pollers) exactly when the spec predicate with strict
60-second timing holds; otherwise it refreshes the stored template in
place, updating the header timestamp and zeroing the nonce. -/
theorem updateBlockTemplate_spec (st : GbtWorkState) (env : GbtEnv) (payAddr : Str) :
    (specRegeneratePredicate st env payAddr →
      ∀ tpl, env.builtTemplate = .ok tpl → ∀ n, env.extraNonce = some n →
        updateBlockTemplate st env payAddr =
          ({ lastTxUpdate := effectiveLastTxUpdate env,
             lastGenerated := env.now,
             tipHashes := some env.dagTipHashes,
             minTimestamp := env.nextBlockMinimumTime,
             template := some tpl,
             notifyMap := (notifyLongPollers st.notifyMap env.dagTipHashes
               (effectiveLastTxUpdate env)).1,
             payAddress := payAddr },
           .ok (notifyLongPollers st.notifyMap env.dagTipHashes
             (effectiveLastTxUpdate env)).2)) ∧
    (¬ specRegeneratePredicate st env payAddr →
      ∃ t, st.template = some t ∧
        updateBlockTemplate st env payAddr =
          ({ st with template := some (refreshTemplate env t) }, .ok [])) := by
  constructor
  · intro hspec tpl htpl n hn
    unfold updateBlockTemplate
    rw [if_pos ((regen_condition_iff st env payAddr).mpr hspec), hn, htpl]
  · intro hspec
    have hcond := (not_iff_not.mpr (regen_condition_iff st env payAddr)).mpr hspec
    rcases ht : st.template with _ | t
    · exact absurd (Or.inl ht) hcond
    · refine ⟨t, rfl, ?_⟩
      unfold updateBlockTemplate
      rw [if_neg hcond]
      simp only [ht]

/-- A stored template used by the 60-second-boundary scenario. -/
def c4Template : BlockTemplateModel :=
  { block := { header := { parentHashes := ["ef".toList], timestamp := 2000,
                           bits := 1, nonce := 5 },
               transactions := [] },
    txMasses := [], fees := [], height := 3 }

/-- The template the builder would return in the boundary scenario. -/
def c4Built : BlockTemplateModel :=
  { block := { header := { parentHashes := ["ef".toList], timestamp := 61000,
                           bits := 1, nonce := 0 },
               transactions := [] },
    txMasses := [], fees := [], height := 4 }

/-- Work state at the boundary: template generated at t = 1000 ms with
mempool stamp 5. -/
def c4State : GbtWorkState :=
  { lastTxUpdate := 5, lastGenerated := 1000, tipHashes := some ["ef".toList],
    minTimestamp := 0, template := some c4Template, notifyMap := [],
    payAddress := "qq".toList }

/-- Environment at exactly `lastGenerated + 60` seconds, with a changed
mempool stamp and unchanged tips and address. -/
def c4Env : GbtEnv :=
  { now := 61000, dagNow := 61000, timestampDeviationTolerance := 100000,
    mempoolLastUpdated := 7, dagTipHashes := ["ef".toList],
    extraNonce := some 4, builtTemplate := .ok c4Built,
    nextBlockMinimumTime := 100, updatedBlockTime := 60500, isSynced := true }

/-- C4 counterexample: at exactly 60 elapsed seconds with a changed
mempool stamp, the claim's "at least 60 seconds" predicate holds, yet the
code refreshes the stored template in place (the commit's
`lastGenerated := now` does not happen), because `Time.After` demands
strictly more than 60 seconds. -/
theorem regenerate_boundary_counterexample :
    specRegeneratePredicateStated c4State c4Env "qq".toList ∧
    updateBlockTemplate c4State c4Env "qq".toList =
      ({ c4State with template := some (refreshTemplate c4Env c4Template) },
        .ok []) ∧
    (updateBlockTemplate c4State c4Env "qq".toList).1.lastGenerated ≠ c4Env.now := by
  refine ⟨?_, rfl, by decide⟩
  unfold specRegeneratePredicateStated
  exact Or.inr (Or.inr (Or.inr (Or.inr ⟨by decide, by decide⟩)))

/-- The boundary environment one millisecond later: now the code does
regenerate. -/
def c4wEnv : GbtEnv := { c4Env with now := 61001, dagNow := 61001 }

/-- Closed witness for the regeneration characterisation, one
millisecond past the 60-second boundary. -/
theorem updateBlockTemplate_spec_witness :
    updateBlockTemplate c4State c4wEnv "qq".toList =
      ({ lastTxUpdate := effectiveLastTxUpdate c4wEnv,
         lastGenerated := c4wEnv.now,
         tipHashes := some c4wEnv.dagTipHashes,
         minTimestamp := c4wEnv.nextBlockMinimumTime,
         template := some c4Built,
         notifyMap := (notifyLongPollers c4State.notifyMap c4wEnv.dagTipHashes
           (effectiveLastTxUpdate c4wEnv)).1,
         payAddress := "qq".toList },
       .ok (notifyLongPollers c4State.notifyMap c4wEnv.dagTipHashes
         (effectiveLastTxUpdate c4wEnv)).2) :=
  (updateBlockTemplate_spec c4State c4wEnv "qq".toList).1
    (by unfold specRegeneratePredicate
        exact Or.inr (Or.inr (Or.inr (Or.inr ⟨by decide, by decide⟩))))
    c4Built rfl 4 rfl

/-- Work state whose stored template timestamp lies beyond the allowed
window (the local clock was moved backward after generation). -/
def c8State : GbtWorkState :=
  { lastTxUpdate := 0, lastGenerated := 1000, tipHashes := some [],
    minTimestamp := 0,
    template := some
      { block :=
          { header :=
              { parentHashes := [], timestamp := 999999, bits := 1, nonce := 0 },
            transactions := [] },
        txMasses := [], fees := [], height := 1 },
    notifyMap := [], payAddress := "qq".toList }

/-- The same work state with an in-window template timestamp. -/
def c8OkState : GbtWorkState :=
  { c8State with
    template := some
      { block :=
          { header :=
              { parentHashes := [], timestamp := 1000, bits := 1, nonce := 0 },
            transactions := [] },
        txMasses := [], fees := [], height := 1 } }

/-- Environment with `dagNow = 1000` and a 2000 ms deviation tolerance. -/
def c8Env : GbtEnv :=
  { now := 1000, dagNow := 1000, timestampDeviationTolerance := 2000,
    mempoolLastUpdated := 0, dagTipHashes := [], extraNonce := some 1,
    builtTemplate := .error "x".toList, nextBlockMinimumTime := 0,
    updatedBlockTime := 0, isSynced := false }

/-- C8 (amended): when the supplied long-poll ID fails to decode, the
handler neither suspends (no wait channel, state untouched) nor surfaces
the decode error; it returns whatever assembling the current template
yields — the template as a successful reply whenever the assembler
succeeds, and only the assembler's own error otherwise. -/
theorem longPoll_decode_failure_recovers (st : GbtWorkState) (env : GbtEnv)
    (id : Str) (ch : Nat) (e : Str) (hdec : decodeLongPollID id = .error e) :
    (blockTemplateOrLongPollChan st env id ch).1 = st ∧
    (∀ c, (blockTemplateOrLongPollChan st env id ch).2 ≠ .waitChan c) ∧
    (∀ r, blockTemplateResult st env = .ok r →
      (blockTemplateOrLongPollChan st env id ch).2 = .reply r) ∧
    (∀ ec, blockTemplateResult st env = .error ec →
      (blockTemplateOrLongPollChan st env id ch).2 = .rpcError ec) := by
  unfold blockTemplateOrLongPollChan
  rw [hdec]
  refine ⟨rfl, ?_, ?_, ?_⟩
  · intro c
    rcases hbr : blockTemplateResult st env with r | ec
    · simp [hbr]
    · simp [hbr]
  · intro r hr
    rw [hr]
  · intro ec hec
    rw [hec]

/-- C8 counterexample: the claim promises a *successful* reply on every
decode failure, but with an out-of-window template timestamp the
assembler fails and the RPC errors with `ErrRPCOutOfRange` instead. -/
theorem longPoll_decode_failure_not_always_reply :
    ¬ (∀ (st : GbtWorkState) (env : GbtEnv) (id : Str) (ch : Nat),
        (∃ e, decodeLongPollID id = .error e) →
        ∃ r, (blockTemplateOrLongPollChan st env id ch).2 = .reply r) := by
  intro h
  obtain ⟨r, hr⟩ := h c8State c8Env "x".toList 0
    ⟨"decodeLongPollID: invalid number of fields".toList, rfl⟩
  rw [show (blockTemplateOrLongPollChan c8State c8Env "x".toList 0).2 =
      .rpcError .errRPCOutOfRange from rfl] at hr
  exact LongPollOutcome.noConfusion hr

/-- Closed witness for the decode-failure recovery, at a state whose
assembler succeeds. -/
theorem longPoll_decode_failure_recovers_witness :
    (blockTemplateOrLongPollChan c8OkState c8Env "x".toList 0).1 = c8OkState ∧
    ∃ r, (blockTemplateOrLongPollChan c8OkState c8Env "x".toList 0).2 = .reply r := by
  have h := longPoll_decode_failure_recovers c8OkState c8Env "x".toList 0
    "decodeLongPollID: invalid number of fields".toList rfl
  exact ⟨h.1, ⟨_, h.2.2.1 _ rfl⟩⟩

/-- Membership in a first-occurrence deduplication. -/
theorem mem_firstOccDedup (seen l : List Int) (x : Int) :
    x ∈ firstOccDedup seen l ↔ (x ∈ l ∧ x ∉ seen) := by
  induction l generalizing seen with
  | nil => simp [firstOccDedup]
  | cons y ys ih =>
    by_cases hy : y ∈ seen
    · rw [firstOccDedup, if_pos hy, ih]
      constructor
      · rintro ⟨hx, hs⟩
        exact ⟨List.mem_cons_of_mem _ hx, hs⟩
      · rintro ⟨hx, hs⟩
        rcases List.mem_cons.mp hx with rfl | hx'
        · exact absurd hy hs
        · exact ⟨hx', hs⟩
    · rw [firstOccDedup, if_neg hy]
      constructor
      · intro hx
        rcases List.mem_cons.mp hx with rfl | hx'
        · exact ⟨List.mem_cons_self _ _, hy⟩
        · rcases (ih (y :: seen)).mp hx' with ⟨h1, h2⟩
          exact ⟨List.mem_cons_of_mem _ h1,
            fun hs => h2 (List.mem_cons_of_mem _ hs)⟩
      · rintro ⟨hx, hs⟩
        rcases List.mem_cons.mp hx with rfl | hx'
        · exact List.mem_cons_self _ _
        · by_cases hxy : x = y
          · subst hxy
            exact List.mem_cons_self _ _
          · exact List.mem_cons_of_mem _ ((ih (y :: seen)).mpr
              ⟨hx', fun hys => (List.mem_cons.mp hys).elim hxy hs⟩)

/-- A first-occurrence deduplication has no duplicates. -/
theorem firstOccDedup_nodup (seen l : List Int) : (firstOccDedup seen l).Nodup := by
  induction l generalizing seen with
  | nil => simp [firstOccDedup]
  | cons y ys ih =>
    by_cases hy : y ∈ seen
    · rw [firstOccDedup, if_pos hy]
      exact ih seen
    · rw [firstOccDedup, if_neg hy]
      refine List.nodup_cons.mpr ⟨?_, ih _⟩
      intro hmem
      exact ((mem_firstOccDedup _ _ _).mp hmem).2 (List.mem_cons_self y seen)

/-- A dependency index comes from looking up some input's
previous-outpoint id. -/
theorem mem_dependsOf (txIndex : List (Nat × Int)) (txIns : List Nat) (d : Int) :
    d ∈ dependsOf txIndex txIns ↔
      ∃ pid ∈ txIns, lookupTxIndex txIndex pid = some d := by
  unfold dependsOf
  rw [mem_firstOccDedup]
  simp [List.mem_filterMap]

/-- The scratch index invariant: every stored index is a valid position
(< i) in the full transaction list and stores that transaction's own id. -/
def txIndexSound (txIndex : List (Nat × Int)) (allTxs : List TxModel) (i : Nat) :
    Prop :=
  ∀ pid v, lookupTxIndex txIndex pid = some v →
    ∃ dn : Nat, (dn : Int) = v ∧ dn < i ∧
      ∃ tx, allTxs[dn]? = some tx ∧ tx.txID = pid

/-- Writing the current transaction's id preserves the index invariant
one position further. -/
theorem txIndexSound_cons (txIndex : List (Nat × Int)) (allTxs : List TxModel)
    (i : Nat) (tx : TxModel) (hs : txIndexSound txIndex allTxs i)
    (hget : allTxs[i]? = some tx) :
    txIndexSound ((tx.txID, (i : Int)) :: txIndex) allTxs (i + 1) := by
  intro pid v hv
  rw [lookupTxIndex] at hv
  by_cases hp : tx.txID = pid
  · rw [if_pos hp] at hv
    injection hv with hv
    exact ⟨i, hv, Nat.lt_succ_self i, tx, hget, hp⟩
  · rw [if_neg hp] at hv
    rcases hs pid v hv with ⟨dn, h1, h2, h3⟩
    exact ⟨dn, h1, Nat.lt_succ_of_lt h2, h3⟩

/-- The conversion loop emits one entry per transaction, carrying its id. -/
theorem buildResultTxsAux_id (masses fees : List Nat) (txIndex : List (Nat × Int))
    (i : Nat) (txs : List TxModel) (k : Nat) :
    ((buildResultTxsAux masses fees txIndex i txs)[k]?).map (fun r => r.id) =
      (txs[k]?).map (fun t => t.txID) := by
  induction txs generalizing txIndex i k with
  | nil => simp [buildResultTxsAux]
  | cons tx rest ih =>
    cases k with
    | zero => simp [buildResultTxsAux]
    | succ k => simpa [buildResultTxsAux] using ih _ (i + 1) k

/-- Soundness of the emitted dependency indices, by induction along the
conversion loop. -/
theorem buildResultTxsAux_depends_sound (masses fees : List Nat)
    (allTxs : List TxModel) :
    ∀ (txs : List TxModel) (txIndex : List (Nat × Int)) (i : Nat),
      txIndexSound txIndex allTxs i →
      (∀ k, txs[k]? = allTxs[i + k]?) →
      ∀ k r, (buildResultTxsAux masses fees txIndex i txs)[k]? = some r →
        r.depends.Nodup ∧
        ∀ d ∈ r.depends, ∃ dn : Nat, (dn : Int) = d ∧ dn ≤ i + k ∧
          ∃ tx, allTxs[i + k]? = some tx ∧
          ∃ tx', allTxs[dn]? = some tx' ∧ tx'.txID ∈ tx.txIns := by
  intro txs
  induction txs with
  | nil =>
    intro txIndex i _ _ k r hr
    simp [buildResultTxsAux] at hr
  | cons tx rest ih =>
    intro txIndex i hsound hpos k r hr
    have hgetTx : allTxs[i]? = some tx := by
      have h0 := hpos 0
      simpa using h0.symm
    have hsound1 := txIndexSound_cons txIndex allTxs i tx hsound hgetTx
    cases k with
    | zero =>
      simp only [buildResultTxsAux, List.getElem?_cons_zero, Option.some.injEq] at hr
      subst hr
      refine ⟨firstOccDedup_nodup _ _, ?_⟩
      intro d hd
      rcases (mem_dependsOf _ _ _).mp hd with ⟨pid, hpin, hlook⟩
      rcases hsound1 pid d hlook with ⟨dn, h1, h2, tx', hget', hid⟩
      refine ⟨dn, h1, by omega, tx, by simpa using hgetTx, tx', hget', ?_⟩
      rw [hid]
      exact hpin
    | succ k =>
      simp only [buildResultTxsAux, List.getElem?_cons_succ] at hr
      have hpos' : ∀ k', rest[k']? = allTxs[(i + 1) + k']? := by
        intro k'
        have h1 := hpos (k' + 1)
        rw [List.getElem?_cons_succ] at h1
        rw [h1]
        congr 1
        omega
      rcases ih _ (i + 1) hsound1 hpos' k r hr with ⟨hnd, hdep⟩
      refine ⟨hnd, ?_⟩
      intro d hd
      rcases hdep d hd with ⟨dn, h1, h2, tx', hg, tx'', hg', hin⟩
      refine ⟨dn, h1, by omega, tx', ?_, tx'', hg', hin⟩
      rw [show i + (k + 1) = (i + 1) + k from by omega]
      exact hg

/-- Extracting the transaction list of a successful reply. -/
theorem blockTemplateResult_transactions (st : GbtWorkState) (env : GbtEnv)
    (tpl : BlockTemplateModel) (reply : GetBlockTemplateResult)
    (htpl : st.template = some tpl)
    (hok : blockTemplateResult st env = .ok reply) :
    reply.transactions =
      buildResultTxs tpl.block.transactions tpl.txMasses tpl.fees := by
  unfold blockTemplateResult at hok
  rw [htpl] at hok
  dsimp only at hok
  by_cases hts : tpl.block.header.timestamp >
      env.dagNow + env.timestampDeviationTolerance
  · rw [if_pos hts] at hok
    exact Except.noConfusion hok
  · rw [if_neg hts] at hok
    injection hok with hok
    rw [← hok]

/-- C3 (amended): in every successful reply, each emitted transaction's
`depends` is a duplicate-free list (in unspecified order) of 0-based
indices into the emitted list, each at most the transaction's own index,
and each denoting an emitted transaction whose id equals the
previous-outpoint id of one of this transaction's inputs. -/
theorem depends_indices_sound (st : GbtWorkState) (env : GbtEnv)
    (tpl : BlockTemplateModel) (reply : GetBlockTemplateResult)
    (htpl : st.template = some tpl)
    (hok : blockTemplateResult st env = .ok reply)
    (k : Nat) (r : ResultTx) (hr : reply.transactions[k]? = some r) :
    r.depends.Nodup ∧
    ∀ d ∈ r.depends, ∃ dn : Nat, (dn : Int) = d ∧ dn ≤ k ∧
      ∃ tx, tpl.block.transactions[k]? = some tx ∧
      ∃ r', reply.transactions[dn]? = some r' ∧ r'.id ∈ tx.txIns := by
  have htx := blockTemplateResult_transactions st env tpl reply htpl hok
  rw [htx] at hr
  unfold buildResultTxs at hr
  have hsound0 : txIndexSound [] tpl.block.transactions 0 := by
    intro pid v hv
    simp [lookupTxIndex] at hv
  have hpos0 : ∀ k', tpl.block.transactions[k']? =
      tpl.block.transactions[0 + k']? := by
    intro k'
    rw [Nat.zero_add]
  rcases buildResultTxsAux_depends_sound tpl.txMasses tpl.fees
    tpl.block.transactions tpl.block.transactions [] 0 hsound0 hpos0 k r hr with
    ⟨hnd, hdep⟩
  refine ⟨hnd, ?_⟩
  intro d hd
  rcases hdep d hd with ⟨dn, h1, h2, tx, hg, tx', hg', hin⟩
  rw [Nat.zero_add] at h2 hg
  have hid := buildResultTxsAux_id tpl.txMasses tpl.fees [] 0
    tpl.block.transactions dn
  rw [hg', Option.map_some'] at hid
  rcases Option.map_eq_some'.mp hid with ⟨r', hr', hrid⟩
  refine ⟨dn, h1, h2, tx, hg, r', ?_, ?_⟩
  · rw [htx]
    unfold buildResultTxs
    exact hr'
  · rw [hrid]
    exact hin

/-- Four transactions: tx 2 references tx 1 then tx 0 (its `depends`
surfaces in input-scan order, unsorted), and tx 3 references its own id
(which is already in the scratch index when its inputs are scanned). -/
def c3Txs : List TxModel :=
  [{ txID := 100, txIns := [], dataHex := [] },
   { txID := 101, txIns := [], dataHex := [] },
   { txID := 102, txIns := [101, 100], dataHex := [] },
   { txID := 103, txIns := [103], dataHex := [] }]

/-- A committed work state holding `c3Txs`. -/
def c3State : GbtWorkState :=
  { lastTxUpdate := 1000, lastGenerated := 2000, tipHashes := some ["cd".toList],
    minTimestamp := 500,
    template := some
      { block :=
          { header :=
              { parentHashes := ["cd".toList], timestamp := 1000, bits := 1,
                nonce := 0 },
            transactions := c3Txs },
        txMasses := [1, 1, 1, 1], fees := [0, 0, 0, 0], height := 9 },
    notifyMap := [], payAddress := "qq".toList }

/-- An environment under which the `c3State` assembler succeeds. -/
def c3Env : GbtEnv :=
  { now := 1000, dagNow := 1000, timestampDeviationTolerance := 1000,
    mempoolLastUpdated := 1000, dagTipHashes := ["cd".toList],
    extraNonce := some 1, builtTemplate := .error "unused".toList,
    nextBlockMinimumTime := 0, updatedBlockTime := 1000, isSynced := true }

/-- The dependency property exactly as the claim states it: sorted (and
thereby duplicate-free) indices, each strictly below the transaction's
own index, pointing at an earlier emitted transaction whose id matches
an input. -/
def dependsSpecAsStated (reply : GetBlockTemplateResult) (txs : List TxModel) :
    Prop :=
  ∀ k r, reply.transactions[k]? = some r →
    r.depends.Sorted (· < ·) ∧
    ∀ d ∈ r.depends, ∃ dn : Nat, (dn : Int) = d ∧ dn < k ∧
      ∃ tx, txs[k]? = some tx ∧
      ∃ r', reply.transactions[dn]? = some r' ∧ r'.id ∈ tx.txIns

/-- C3 counterexample: on `c3State` the reply's transaction at index 2
carries `depends = [1, 0]` — not sorted (Go emits the `dependsMap` keys
in map order, and the inputs are scanned 101 before 100) — and the
transaction at index 3 carries `depends = [3]`, equal to its own index
(its id enters the scratch index before its inputs are scanned), so the
claim as stated fails on both counts. -/
theorem depends_spec_as_stated_counterexample :
    ∃ reply, blockTemplateResult c3State c3Env = .ok reply ∧
      ¬ dependsSpecAsStated reply c3Txs ∧
      (∃ r2, reply.transactions[2]? = some r2 ∧ r2.depends = [1, 0]) ∧
      (∃ r3, reply.transactions[3]? = some r3 ∧ r3.depends = [3]) := by
  refine ⟨_, rfl, ?_, ⟨_, rfl, rfl⟩, ⟨_, rfl, rfl⟩⟩
  intro h
  have hs := (h 2 _ rfl).1
  exact absurd hs (by decide)

/-- Closed witness for the amended dependency soundness at `c3State`. -/
theorem depends_indices_sound_witness :
    ∃ reply r, blockTemplateResult c3State c3Env = .ok reply ∧
      reply.transactions[2]? = some r ∧ r.depends.Nodup := by
  refine ⟨_, _, rfl, rfl, ?_⟩
  exact (depends_indices_sound c3State c3Env _ _ rfl rfl 2 _ rfl).1

/-- C1: the long-poll round-trip claim fails on the code.  For tip hashes
`[]`, pay address `"qr"` and generation time `0`, `encodeLongPollID`
produces the string `-qr-0`, which splits into three dash-separated
fields, while `decodeLongPollID` accepts only exactly two — so the decode
of a freshly minted ID errors instead of round-tripping.  (The encoder
always emits three fields, so this holds for every input whose address
and hashes contain no dash.) -/
theorem decode_encode_longPollID_fails :
    decodeLongPollID (encodeLongPollID [] "qr".toList 0) =
      .error "decodeLongPollID: invalid number of fields".toList := by
  rfl

end KaspadGBT
